import Mathlib

/-!
Verification of the greenlight process-lifecycle orchestrator and its
structured leveled logger (package `jsonlog` and the graceful `serve`
method) against the repository's natural-language specification.

The logger (`jsonlog`) is embedded shallowly: `Level` is the Go `int8`
severity (as `Int`), `Logger.printWith` is the internal `print` method with
the `json.Marshal` step kept abstract (a `MarshalFn` argument), since the
source branches on a possible marshal error.  `jsonMarshal` is the concrete
serializer matching `encoding/json` on the `aux` struct: fields in struct
order, `properties` and `trace` dropped when empty (`omitempty`), map keys
sorted, strings escaped so that no raw newline reaches the sink.

The lifecycle orchestrator (`serve`) is embedded as a two-thread small-step
system: the signal-watcher goroutine and the main goroutine each become a
straight-line instruction list (branches resolved by the parameters the
source branches on: the result of `server.Shutdown` and of
`server.ListenAndServe`), and an unbuffered channel rendezvous joins them.
-/

namespace Greenlight

namespace Jsonlog

/-- Go: `type Level int8` — the severity level for a log entry. -/
abbrev Level := Int

/-- Go: `LevelInfo Level = iota` (value 0). -/
def LevelInfo : Level := 0

/-- Go: `LevelError` (value 1). -/
def LevelError : Level := 1

/-- Go: `LevelFatal` (value 2). -/
def LevelFatal : Level := 2

/-- Go: `LevelOff` (value 3). -/
def LevelOff : Level := 3

/-- Go: `func (l Level) String() string` — the switch over the level. -/
def Level.String (l : Level) : String :=
  if l = LevelInfo then "INFO"
  else if l = LevelError then "ERROR"
  else if l = LevelFatal then "FATAL"
  else ""

/-- A JSON value as produced for the `aux` struct: a string, or the
string-to-string `properties` object. -/
inductive JsonVal where
  | str (s : String)
  | obj (fields : List (String × String))
deriving DecidableEq

/-- Insert one property into a key-sorted list (helper for the key sorting
`encoding/json` performs on maps). -/
def insertProp (p : String × String) : List (String × String) → List (String × String)
  | [] => [p]
  | q :: rest => if p.1 ≤ q.1 then p :: q :: rest else q :: insertProp p rest

/-- `encoding/json` serializes map keys in sorted order. -/
def sortProps : List (String × String) → List (String × String)
  | [] => []
  | p :: rest => insertProp p (sortProps rest)

/-- JSON string escaping for one character (the escapes that matter here:
quote, backslash, and the whitespace control characters, in particular the
newline — `encoding/json` never emits a raw newline inside a string). -/
def escChar (c : Char) : List Char :=
  if c = '"' then ['\\', '"']
  else if c = '\\' then ['\\', '\\']
  else if c = '\n' then ['\\', 'n']
  else if c = '\r' then ['\\', 'r']
  else if c = '\t' then ['\\', 't']
  else [c]

/-- A JSON-quoted, escaped string literal, as a character list. -/
def encStr (s : String) : List Char :=
  '"' :: List.flatten (s.data.map escChar) ++ ['"']

/-- Comma-separated concatenation. -/
def intercalateC (sep : Char) : List (List Char) → List Char
  | [] => []
  | [x] => x
  | x :: xs => x ++ sep :: intercalateC sep xs

/-- Rendering of one JSON value. -/
def encVal : JsonVal → List Char
  | JsonVal.str s => encStr s
  | JsonVal.obj props =>
      '{' :: intercalateC ',' ((sortProps props).map (fun p => encStr p.1 ++ ':' :: encStr p.2)) ++ ['}']

/-- Rendering of the whole record. -/
def renderFields (fs : List (String × JsonVal)) : List Char :=
  '{' :: intercalateC ',' (fs.map (fun f => encStr f.1 ++ ':' :: encVal f.2)) ++ ['}']

/-- The `aux` struct of `Logger.print`, as its field list in declaration
order; `properties` and `trace` carry `omitempty`, so they are dropped when
the map is empty resp. the trace string is empty. -/
def auxFields (levelStr timeStr msg : String) (props : List (String × String))
    (trace : String) : List (String × JsonVal) :=
  [("level", JsonVal.str levelStr), ("time", JsonVal.str timeStr),
   ("message", JsonVal.str msg)]
  ++ (if props = [] then [] else [("properties", JsonVal.obj props)])
  ++ (if trace = "" then [] else [("trace", JsonVal.str trace)])

/-- Go: `type Logger struct` — the output sink and mutex are modelled at the
use sites (the sink as an explicit byte stream, the mutex as atomicity of
each write), so only the minimum severity threshold remains as data. -/
structure Logger where
  minLevel : Level
deriving DecidableEq

/-- Go: `func New(out io.Writer, minLevel Level) *Logger`. -/
def New (minLevel : Level) : Logger := ⟨minLevel⟩

/-- Go: `if level >= LevelError { aux.Trace = string(debug.Stack()) }`;
`stack` stands for the (always non-empty) `debug.Stack()` capture. -/
def traceFor (level : Level) (stack : String) : String :=
  if LevelError ≤ level then stack else ""

/-- The field list `Logger.print` builds for one entry. -/
def entryFields (level : Level) (message : String) (props : List (String × String))
    (stack timeStr : String) : List (String × JsonVal) :=
  auxFields (Level.String level) timeStr message props (traceFor level stack)

/-- The type of the `json.Marshal` step: it may fail, and the source handles
that failure explicitly, so the write path is stated over any marshaller. -/
abbrev MarshalFn := List (String × JsonVal) → Except String (List Char)

/-- The actual `json.Marshal` behaviour on the `aux` struct: render the
fields; marshalling this struct never fails. -/
def jsonMarshal : MarshalFn := fun fs => Except.ok (renderFields fs)

/-- Go: `line = []byte(LevelError.String() + ": unable to marshal log message: " + err.Error())`. -/
def fallbackLine (errMsg : String) : List Char :=
  (Level.String LevelError ++ ": unable to marshal log message: " ++ errMsg).data

/-- Go: `func (l *Logger) print(level Level, message string, properties map[string]string) (int, error)`,
up to the bytes handed to `l.out.Write`: `none` when the entry is filtered
out (the method returns `(0, nil)` with no I/O), otherwise `some` of the
line (serialized entry, or the plain-text fallback) with the `'\n'`
appended by `append(line, '\n')`. -/
def Logger.printWith (marshal : MarshalFn) (l : Logger) (level : Level) (message : String)
    (props : List (String × String)) (stack timeStr : String) : Option (List Char) :=
  if level < l.minLevel then none
  else
    let line := match marshal (entryFields level message props stack timeStr) with
      | Except.ok cs => cs
      | Except.error e => fallbackLine e
    some (line ++ ['\n'])

/-- The `(int, error)` value `print` returns: `(0, nil)` on the filtered
path, otherwise whatever `l.out.Write` returns for the line's bytes (the
writer is abstract). -/
def Logger.printResult (marshal : MarshalFn) (writer : List Char → Int × Option String)
    (l : Logger) (level : Level) (message : String) (props : List (String × String))
    (stack timeStr : String) : Int × Option String :=
  match Logger.printWith marshal l level message props stack timeStr with
  | none => (0, none)
  | some bytes => writer bytes

/-- `print` with the concrete marshaller. -/
def Logger.print (l : Logger) (level : Level) (message : String)
    (props : List (String × String)) (stack timeStr : String) : Option (List Char) :=
  Logger.printWith jsonMarshal l level message props stack timeStr

/-- Go: `func (l *Logger) PrintInfo(message string, properties map[string]string)`. -/
def Logger.PrintInfo (l : Logger) (message : String) (props : List (String × String))
    (stack timeStr : String) : Option (List Char) :=
  Logger.print l LevelInfo message props stack timeStr

/-- Go: `func (l *Logger) PrintError(err error, properties map[string]string)`;
`errMsg` is `err.Error()`. -/
def Logger.PrintError (l : Logger) (errMsg : String) (props : List (String × String))
    (stack timeStr : String) : Option (List Char) :=
  Logger.print l LevelError errMsg props stack timeStr

/-- Observable actions of `PrintFatal`: the sink write (if the entry passes
the filter) and the `os.Exit` call. -/
inductive FEvent where
  | write (bytes : List Char)
  | exitProc (code : Nat)
deriving DecidableEq

/-- Go: `func (l *Logger) PrintFatal(err error, properties map[string]string)` —
`l.print(LevelFatal, err.Error(), properties)` followed unconditionally by
`os.Exit(1)`; the exit does not depend on the write's outcome. -/
def Logger.PrintFatal (l : Logger) (errMsg : String) (props : List (String × String))
    (stack timeStr : String) : List FEvent :=
  (match Logger.print l LevelFatal errMsg props stack timeStr with
   | none => []
   | some bs => [FEvent.write bs]) ++ [FEvent.exitProc 1]

/-- Counts the sink-write events of a `PrintFatal` call. -/
def writeCount (evs : List FEvent) : Nat :=
  evs.countP (fun e => match e with | FEvent.write _ => true | FEvent.exitProc _ => false)

/-- A marshaller that fails on every entry, to drive the fallback branch of
the write path. -/
def failingMarshal : MarshalFn := fun _ => Except.error "boom"

/-- One logging call as issued by one of N concurrent threads. -/
structure CallRec where
  level : Level
  message : String
  props : List (String × String)
  stack : String
  timeStr : String
deriving DecidableEq

/-- The bytes one call hands to the sink (atomically, under the write
mutex), if any. -/
def emitLine (l : Logger) (c : CallRec) : Option (List Char) :=
  Logger.print l c.level c.message c.props c.stack c.timeStr

/-- Splits a byte stream into newline-terminated segments (the accumulator
holds the current segment, reversed). -/
def splitLinesAux : List Char → List Char → List (List Char)
  | [], acc => if acc = [] then [] else [acc.reverse]
  | c :: rest, acc =>
    if c = '\n' then (acc.reverse ++ ['\n']) :: splitLinesAux rest []
    else splitLinesAux rest (c :: acc)

/-- The newline-terminated segments a sink observer reads back. -/
def splitLines (s : List Char) : List (List Char) :=
  splitLinesAux s []

/-- A below-threshold INFO call, for the C9 witness. -/
def callInfoSample : CallRec :=
  ⟨LevelInfo, "request served", [("addr", ":8080")], "stk", "t1"⟩

/-- An at-threshold ERROR call, for the C9 witness. -/
def callErrSample : CallRec :=
  ⟨LevelError, "boom", [("addr", ":8080")], "stk", "t2"⟩

end Jsonlog

end Greenlight

namespace Greenlight

namespace Serve

/-!
The graceful `serve` method, embedded as a two-thread small-step system.

The signal-watcher goroutine (source lines 33–59) and the main goroutine
(the reconciliation path after `ListenAndServe` returns, source lines
71–91) each become a straight-line instruction list: the branch on
`server.Shutdown(ctx)`'s result is resolved by the parameter `res`
(`some e` = the bounded drain failed with error `e`, `none` = it
succeeded), and the branch on the received channel value is resolved at the
rendezvous.  `shutdownError` is an unbuffered channel: a send completes
only jointly with the single receive the main goroutine performs, which is
exactly the `Step.rendezvous` rule; a send instruction with no receiver
never fires.  Once the process has exited (`exited = true`) no goroutine
steps any more.  The `mexit` instructions model the caller `main()` —
which is not part of the sources — from the spec's exit behaviour: status
0 on a clean cycle, non-zero when `serve` returns an error.
-/

/-- Observable events of one process run. -/
inductive SEvent where
  | log (msg : String)
  | send (v : Option String)
  | wgWait
  | ret (v : Option String)
  | exit (code : Nat)
deriving DecidableEq

/-- Instructions of the signal-watcher goroutine. -/
inductive WInstr where
  | wlog (msg : String)
  | wsend (v : Option String)
  | wwait
deriving DecidableEq

/-- Instructions of the main goroutine. -/
inductive MInstr where
  | mlog (msg : String)
  | mrecv
  | mret (v : Option String)
  | mexit (code : Nat)
deriving DecidableEq

/-- The watcher goroutine body after the signal arrived, as a function of
`server.Shutdown`'s return value `res`: log "shutting down server"; if
Shutdown returned an error, send it on `shutdownError` (the body does NOT
return there); then log "completing background tasks", wait on the
WaitGroup, and send nil. -/
def watcherProg (res : Option String) : List WInstr :=
  WInstr.wlog "shutting down server"
    :: (match res with
        | some e => [WInstr.wsend (some e)]
        | none => [])
    ++ [WInstr.wlog "completing background tasks", WInstr.wwait, WInstr.wsend none]

/-- The main goroutine after it received `v` from `shutdownError`: a
non-nil value is returned as `serve`'s error (and `main()` then exits
non-zero); nil is followed by the "stopped server" log, a nil return and a
clean exit.  The exit codes are modelled from the spec (`main()` is not in
the sources). -/
def mainAfterRecv (v : Option String) : List MInstr :=
  match v with
  | some e => [MInstr.mret (some e), MInstr.mexit 1]
  | none => [MInstr.mlog "stopped server", MInstr.mret none, MInstr.mexit 0]

/-- A system configuration: the two goroutines' remaining instructions,
whether the process has exited, and the event trace so far. -/
structure Config where
  w : List WInstr
  m : List MInstr
  exited : Bool
  trace : List SEvent
deriving DecidableEq

/-- One interleaving step.  The only synchronization is the unbuffered
channel: `rendezvous` fires a send and the main goroutine's sole receive
together.  A `wsend` with no receiver at `mrecv` has no rule — the sender
blocks, exactly as an unbuffered Go channel does. -/
inductive Step : Config → Config → Prop where
  | wlog : ∀ s w m t,
      Step ⟨WInstr.wlog s :: w, m, false, t⟩ ⟨w, m, false, t ++ [SEvent.log s]⟩
  | wwait : ∀ w m t,
      Step ⟨WInstr.wwait :: w, m, false, t⟩ ⟨w, m, false, t ++ [SEvent.wgWait]⟩
  | rendezvous : ∀ v w t,
      Step ⟨WInstr.wsend v :: w, [MInstr.mrecv], false, t⟩
           ⟨w, mainAfterRecv v, false, t ++ [SEvent.send v]⟩
  | mlog : ∀ s w m t,
      Step ⟨w, MInstr.mlog s :: m, false, t⟩ ⟨w, m, false, t ++ [SEvent.log s]⟩
  | mret : ∀ v w m t,
      Step ⟨w, MInstr.mret v :: m, false, t⟩ ⟨w, m, false, t ++ [SEvent.ret v]⟩
  | mexit : ∀ k w m t,
      Step ⟨w, MInstr.mexit k :: m, false, t⟩ ⟨w, m, true, t ++ [SEvent.exit k]⟩

/-- Reachability in any number of interleaving steps. -/
def Reaches : Config → Config → Prop :=
  Relation.ReflTransGen Step

/-- A configuration from which no goroutine can step. -/
def Terminal (c : Config) : Prop :=
  ∀ c2, ¬ Step c c2

/-- Initial configuration of the shutdown sequence: startup has been
logged, the signal arrived, `server.Shutdown(ctx)` returned `res`, the
listener is closed so `ListenAndServe` has returned `http.ErrServerClosed`
and the main goroutine sits at the channel receive (source line 78). -/
def initServe (res : Option String) : Config :=
  ⟨watcherProg res, [MInstr.mrecv], false, [SEvent.log "starting server"]⟩

/-- Initial configuration of the genuine-failure path: `ListenAndServe`
returned an error `e` that is not `http.ErrServerClosed`; `serve` returns
it at once (source lines 71–74); no signal ever arrived, so the watcher has
no enabled instruction. -/
def initFail (e : String) : Config :=
  ⟨[], [MInstr.mlog "starting server", MInstr.mret (some e), MInstr.mexit 1], false, []⟩

/-- The values delivered on `shutdownError`, in order. -/
def sendsOf (t : List SEvent) : List (Option String) :=
  t.filterMap fun e => match e with | SEvent.send v => some v | _ => none

/-- The values `serve` returned, in order (at most one in any run). -/
def retsOf (t : List SEvent) : List (Option String) :=
  t.filterMap fun e => match e with | SEvent.ret v => some v | _ => none

/-- The process exit codes, in order (at most one in any run). -/
def exitsOf (t : List SEvent) : List Nat :=
  t.filterMap fun e => match e with | SEvent.exit k => some k | _ => none

/-- The log lines emitted, in order. -/
def logsOf (t : List SEvent) : List String :=
  t.filterMap fun e => match e with | SEvent.log s => some s | _ => none

/-- Clean path, after the watcher logged "shutting down server". -/
def cfgN1 : Config :=
  ⟨[WInstr.wlog "completing background tasks", WInstr.wwait, WInstr.wsend none],
   [MInstr.mrecv], false,
   [SEvent.log "starting server", SEvent.log "shutting down server"]⟩

/-- Clean path, after the watcher logged "completing background tasks". -/
def cfgN2 : Config :=
  ⟨[WInstr.wwait, WInstr.wsend none], [MInstr.mrecv], false,
   [SEvent.log "starting server", SEvent.log "shutting down server",
    SEvent.log "completing background tasks"]⟩

/-- Clean path, after `app.wg.Wait()` returned (no outstanding tasks). -/
def cfgN3 : Config :=
  ⟨[WInstr.wsend none], [MInstr.mrecv], false,
   [SEvent.log "starting server", SEvent.log "shutting down server",
    SEvent.log "completing background tasks", SEvent.wgWait]⟩

/-- Clean path, after the nil outcome was delivered on the channel. -/
def cfgN4 : Config :=
  ⟨[], [MInstr.mlog "stopped server", MInstr.mret none, MInstr.mexit 0], false,
   [SEvent.log "starting server", SEvent.log "shutting down server",
    SEvent.log "completing background tasks", SEvent.wgWait, SEvent.send none]⟩

/-- Clean path, after the "stopped server" log. -/
def cfgN5 : Config :=
  ⟨[], [MInstr.mret none, MInstr.mexit 0], false,
   [SEvent.log "starting server", SEvent.log "shutting down server",
    SEvent.log "completing background tasks", SEvent.wgWait, SEvent.send none,
    SEvent.log "stopped server"]⟩

/-- Clean path, after `serve` returned nil. -/
def cfgN6 : Config :=
  ⟨[], [MInstr.mexit 0], false,
   [SEvent.log "starting server", SEvent.log "shutting down server",
    SEvent.log "completing background tasks", SEvent.wgWait, SEvent.send none,
    SEvent.log "stopped server", SEvent.ret none]⟩

/-- Clean path, terminal: the process exited with status 0. -/
def cfgN7 : Config :=
  ⟨[], [], true,
   [SEvent.log "starting server", SEvent.log "shutting down server",
    SEvent.log "completing background tasks", SEvent.wgWait, SEvent.send none,
    SEvent.log "stopped server", SEvent.ret none, SEvent.exit 0]⟩

/-- Reachable shapes of the drain-failure run (`server.Shutdown` returned
error `e`): the watcher delivers `e` at the rendezvous, then — because the
source's error branch does not return — continues through the
"completing background tasks" log, `app.wg.Wait()`, and a final nil send
which can never complete, while the main goroutine concurrently returns the
error and exits. -/
def failInvariant (e : String) (c : Config) : Prop :=
  (∃ t, c = ⟨[WInstr.wlog "shutting down server", WInstr.wsend (some e),
              WInstr.wlog "completing background tasks", WInstr.wwait, WInstr.wsend none],
             [MInstr.mrecv], false, t⟩
        ∧ sendsOf t = [] ∧ retsOf t = [] ∧ exitsOf t = [])
  ∨ (∃ t, c = ⟨[WInstr.wsend (some e), WInstr.wlog "completing background tasks",
               WInstr.wwait, WInstr.wsend none], [MInstr.mrecv], false, t⟩
        ∧ sendsOf t = [] ∧ retsOf t = [] ∧ exitsOf t = [])
  ∨ (∃ t, c = ⟨[WInstr.wlog "completing background tasks", WInstr.wwait, WInstr.wsend none],
               [MInstr.mret (some e), MInstr.mexit 1], false, t⟩
        ∧ sendsOf t = [some e] ∧ retsOf t = [] ∧ exitsOf t = [])
  ∨ (∃ t, c = ⟨[WInstr.wwait, WInstr.wsend none],
               [MInstr.mret (some e), MInstr.mexit 1], false, t⟩
        ∧ sendsOf t = [some e] ∧ retsOf t = [] ∧ exitsOf t = [])
  ∨ (∃ t, c = ⟨[WInstr.wsend none],
               [MInstr.mret (some e), MInstr.mexit 1], false, t⟩
        ∧ sendsOf t = [some e] ∧ retsOf t = [] ∧ exitsOf t = [])
  ∨ (∃ t, c = ⟨[WInstr.wlog "completing background tasks", WInstr.wwait, WInstr.wsend none],
               [MInstr.mexit 1], false, t⟩
        ∧ sendsOf t = [some e] ∧ retsOf t = [some e] ∧ exitsOf t = [])
  ∨ (∃ t, c = ⟨[WInstr.wwait, WInstr.wsend none], [MInstr.mexit 1], false, t⟩
        ∧ sendsOf t = [some e] ∧ retsOf t = [some e] ∧ exitsOf t = [])
  ∨ (∃ t, c = ⟨[WInstr.wsend none], [MInstr.mexit 1], false, t⟩
        ∧ sendsOf t = [some e] ∧ retsOf t = [some e] ∧ exitsOf t = [])
  ∨ (∃ t, c = ⟨[WInstr.wlog "completing background tasks", WInstr.wwait, WInstr.wsend none],
               [], true, t⟩
        ∧ sendsOf t = [some e] ∧ retsOf t = [some e] ∧ exitsOf t = [1])
  ∨ (∃ t, c = ⟨[WInstr.wwait, WInstr.wsend none], [], true, t⟩
        ∧ sendsOf t = [some e] ∧ retsOf t = [some e] ∧ exitsOf t = [1])
  ∨ (∃ t, c = ⟨[WInstr.wsend none], [], true, t⟩
        ∧ sendsOf t = [some e] ∧ retsOf t = [some e] ∧ exitsOf t = [1])

/-- Drain-failure execution in which the watcher has delivered the error,
logged "completing background tasks" and executed `app.wg.Wait()`, and now
sits blocked at the nil send while the main goroutine has not yet exited. -/
def cfgAfterWait (e : String) : Config :=
  ⟨[WInstr.wsend none], [MInstr.mret (some e), MInstr.mexit 1], false,
   [SEvent.log "starting server", SEvent.log "shutting down server",
    SEvent.send (some e), SEvent.log "completing background tasks", SEvent.wgWait]⟩

/-- Terminal configuration of the genuine-listen-failure run. -/
def cfgFailDone (e : String) : Config :=
  ⟨[], [], true, [SEvent.log "starting server", SEvent.ret (some e), SEvent.exit 1]⟩

end Serve

end Greenlight

namespace Greenlight

namespace Jsonlog

/-- C3: for every severity level L and every logger with minimum threshold T,
a logging call at level L produces a sink write iff L ≥ T; when L < T the
write path hands nothing to the writer and returns `(0, nil)` for every
writer. -/
theorem print_filters_below_threshold (l : Logger) (marshal : MarshalFn) (level : Level)
    (msg : String) (props : List (String × String)) (stack timeStr : String) :
    ((Logger.printWith marshal l level msg props stack timeStr).isSome ↔ l.minLevel ≤ level)
    ∧ (level < l.minLevel →
        Logger.printWith marshal l level msg props stack timeStr = none
        ∧ ∀ writer, Logger.printResult marshal writer l level msg props stack timeStr = (0, none)) := by
  constructor
  · unfold Logger.printWith
    by_cases h : level < l.minLevel
    · simp [h, not_le.mpr h]
    · simp [h, not_lt.mp h]
  · intro h
    have hnone : Logger.printWith marshal l level msg props stack timeStr = none := by
      unfold Logger.printWith
      simp [h]
    refine ⟨hnone, fun writer => ?_⟩
    unfold Logger.printResult
    rw [hnone]

/-- Witness for C3 at a concrete input: threshold ERROR, an INFO call, and a
writer that would report a failure if it were ever invoked. -/
theorem print_filters_below_threshold_witness :
    LevelInfo < (New LevelError).minLevel
    ∧ Logger.printResult jsonMarshal (fun _ => (7, some "io failure")) (New LevelError)
        LevelInfo "x" [] "stack" "2026-01-01T00:00:00Z" = (0, none) :=
  ⟨by decide,
   ((print_filters_below_threshold (New LevelError) jsonMarshal LevelInfo "x" []
      "stack" "2026-01-01T00:00:00Z").2 (by decide)).2 (fun _ => (7, some "io failure"))⟩

/-- C10: `Level.String` maps the three emittable levels to their names and
everything else — the OFF sentinel included — to the empty string; an entry
at such a level therefore carries an empty `level` field. -/
theorem level_string_cases :
    Level.String LevelInfo = "INFO"
    ∧ Level.String LevelError = "ERROR"
    ∧ Level.String LevelFatal = "FATAL"
    ∧ Level.String LevelOff = ""
    ∧ ∀ l : Level, l ≠ LevelInfo → l ≠ LevelError → l ≠ LevelFatal →
        Level.String l = ""
        ∧ ∀ msg props stack timeStr,
            (entryFields l msg props stack timeStr).head? = some ("level", JsonVal.str "") := by
  refine ⟨by decide, by decide, by decide, by decide, ?_⟩
  intro l h0 h1 h2
  have hs : Level.String l = "" := by
    unfold Level.String
    simp [h0, h1, h2]
  refine ⟨hs, fun msg props stack timeStr => ?_⟩
  unfold entryFields auxFields
  simp [hs]

/-- Witness for C10 at the concrete out-of-range level 7. -/
theorem level_string_cases_witness :
    (7 : Level) ≠ LevelInfo ∧ (7 : Level) ≠ LevelError ∧ (7 : Level) ≠ LevelFatal
    ∧ Level.String 7 = ""
    ∧ (entryFields 7 "m" [] "stk" "t").head? = some ("level", JsonVal.str "") :=
  ⟨by decide, by decide, by decide,
   (level_string_cases.2.2.2.2 7 (by decide) (by decide) (by decide)).1,
   (level_string_cases.2.2.2.2 7 (by decide) (by decide) (by decide)).2 "m" [] "stk" "t"⟩


/-- C4 counterexample: with the minimum threshold configured to the OFF
sentinel, `PrintFatal` writes no entry at all (the severity filter discards
the FATAL entry) and still terminates the process — refuting the claim that
a fatal call writes exactly one entry for every configured threshold. -/
theorem print_fatal_off_threshold_counterexample :
    Logger.PrintFatal (New LevelOff) "boom" [] "stk" "t" = [FEvent.exitProc 1]
    ∧ writeCount (Logger.PrintFatal (New LevelOff) "boom" [] "stk" "t") = 0
    ∧ writeCount (Logger.PrintFatal (New LevelOff) "boom" [] "stk" "t") ≠ 1 := by
  refine ⟨?_, ?_, ?_⟩ <;> decide

/-- C4 amended: `PrintFatal` writes exactly one entry and then terminates
with status 1 whenever the configured threshold admits FATAL entries
(T ≤ FATAL); with the OFF threshold it writes nothing; in every case the
very last action is the non-zero termination, and the event sequence does
not depend on the outcome of the sink write. -/
theorem print_fatal_writes_then_terminates (l : Logger) (errMsg : String)
    (props : List (String × String)) (stack timeStr : String) :
    (l.minLevel ≤ LevelFatal →
      ∃ bs, Logger.PrintFatal l errMsg props stack timeStr = [FEvent.write bs, FEvent.exitProc 1])
    ∧ (LevelFatal < l.minLevel →
      Logger.PrintFatal l errMsg props stack timeStr = [FEvent.exitProc 1])
    ∧ (Logger.PrintFatal l errMsg props stack timeStr).getLast? = some (FEvent.exitProc 1) := by
  unfold Logger.PrintFatal Logger.print Logger.printWith
  by_cases h : LevelFatal < l.minLevel
  · simp [h, not_le.mpr h]
  · simp [h, not_lt.mp h]

/-- Witness for the amended C4 at a concrete threshold that admits FATAL. -/
theorem print_fatal_writes_then_terminates_witness :
    (New LevelInfo).minLevel ≤ LevelFatal
    ∧ ∃ bs, Logger.PrintFatal (New LevelInfo) "boom" [] "stk" "t"
        = [FEvent.write bs, FEvent.exitProc 1] :=
  ⟨by decide,
   (print_fatal_writes_then_terminates (New LevelInfo) "boom" [] "stk" "t").1 (by decide)⟩


/-- C6 counterexample: for an entry at FATAL severity whose serialization
fails, the substituted plain-text line begins with the fixed literal
"ERROR" — not with the severity name of the entry ("FATAL") as the claim
states: the source builds the fallback from `LevelError.String()`
regardless of the entry's level. -/
theorem fallback_uses_error_literal_counterexample :
    Logger.printWith failingMarshal (New LevelInfo) LevelFatal "m" [] "stk" "t"
      = some (fallbackLine "boom" ++ ['\n'])
    ∧ List.isPrefixOf ("FATAL".data) (fallbackLine "boom") = false
    ∧ List.isPrefixOf ("ERROR".data) (fallbackLine "boom") = true := by
  refine ⟨?_, ?_, ?_⟩ <;> decide

/-- C6 amended: for every entry whose serialization fails, the write path
substitutes a plain-text line made of the fixed literal ERROR severity name
(whatever the entry's own level), the fixed separator
": unable to marshal log message: ", and the raw failure description; the
construction is a total function (it never fails) and the resulting line is
written in place of the serialized entry. -/
theorem fallback_line_shape (l : Logger) (marshal : MarshalFn) (level : Level)
    (msg : String) (props : List (String × String)) (stack timeStr : String) (e : String)
    (hm : marshal (entryFields level msg props stack timeStr) = Except.error e)
    (hlvl : l.minLevel ≤ level) :
    Logger.printWith marshal l level msg props stack timeStr
      = some ((Level.String LevelError ++ ": unable to marshal log message: " ++ e).data
              ++ ['\n']) := by
  unfold Logger.printWith
  rw [if_neg (not_lt.mpr hlvl), hm]
  rfl

/-- Witness for the amended C6, with the failing marshaller at an INFO-level
entry. -/
theorem fallback_line_shape_witness :
    failingMarshal (entryFields LevelInfo "m" [] "stk" "t") = Except.error "boom"
    ∧ (New LevelInfo).minLevel ≤ LevelInfo
    ∧ Logger.printWith failingMarshal (New LevelInfo) LevelInfo "m" [] "stk" "t"
        = some ((Level.String LevelError ++ ": unable to marshal log message: " ++ "boom").data
                ++ ['\n']) :=
  ⟨rfl, by decide,
   fallback_line_shape (New LevelInfo) failingMarshal LevelInfo "m" [] "stk" "t" "boom"
     rfl (by decide)⟩

/-- C7: in the serialized record the `trace` field is present exactly when
the entry's severity is ERROR or above (the stack is captured only then),
the `properties` field is dropped exactly when the property mapping is
empty, and the fields that are present appear in the stable declaration
order level, time, message, properties, trace. -/
theorem entry_fields_presence_and_order (level : Level) (msg : String)
    (props : List (String × String)) (stack timeStr : String) (hstack : stack ≠ "") :
    (("trace" ∈ (entryFields level msg props stack timeStr).map Prod.fst) ↔ LevelError ≤ level)
    ∧ (("properties" ∈ (entryFields level msg props stack timeStr).map Prod.fst) ↔ props ≠ [])
    ∧ List.Sublist ((entryFields level msg props stack timeStr).map Prod.fst)
        ["level", "time", "message", "properties", "trace"]
    ∧ "level" ∈ (entryFields level msg props stack timeStr).map Prod.fst
    ∧ "time" ∈ (entryFields level msg props stack timeStr).map Prod.fst
    ∧ "message" ∈ (entryFields level msg props stack timeStr).map Prod.fst := by
  unfold entryFields auxFields traceFor
  by_cases hl : LevelError ≤ level
  · by_cases hp : props = [] <;> simp [hl, hp, hstack]
  · by_cases hp : props = [] <;> simp [hl, hp]

/-- Witness for C7: concrete ERROR entry with one property and a non-empty
stack capture. -/
theorem entry_fields_presence_and_order_witness :
    ("stk" : String) ≠ ""
    ∧ (("trace" ∈ (entryFields LevelError "m" [("k", "v")] "stk" "t").map Prod.fst)
        ↔ LevelError ≤ LevelError)
    ∧ (("properties" ∈ (entryFields LevelError "m" [("k", "v")] "stk" "t").map Prod.fst)
        ↔ ([("k", "v")] : List (String × String)) ≠ [])
    ∧ List.Sublist ((entryFields LevelError "m" [("k", "v")] "stk" "t").map Prod.fst)
        ["level", "time", "message", "properties", "trace"] :=
  ⟨by decide,
   (entry_fields_presence_and_order LevelError "m" [("k", "v")] "stk" "t" (by decide)).1,
   (entry_fields_presence_and_order LevelError "m" [("k", "v")] "stk" "t" (by decide)).2.1,
   (entry_fields_presence_and_order LevelError "m" [("k", "v")] "stk" "t" (by decide)).2.2.1⟩


theorem nl_not_mem_escChar (c : Char) : '\n' ∉ escChar c := by
  unfold escChar
  split
  · simp
  · split
    · simp
    · split
      · simp
      · split
        · simp
        · split
          · simp
          · rename_i h1 h2 h3 h4 h5
            simp only [List.mem_singleton]
            exact fun h => h3 h.symm

theorem nl_not_mem_encStr (s : String) : '\n' ∉ encStr s := by
  unfold encStr
  intro h
  rcases List.mem_cons.mp h with h1 | h1
  · exact absurd h1 (by decide)
  · rcases List.mem_append.mp h1 with h2 | h2
    · rcases List.mem_flatten.mp h2 with ⟨l, hl, hmem⟩
      rcases List.mem_map.mp hl with ⟨c, _, rfl⟩
      exact nl_not_mem_escChar c hmem
    · exact absurd h2 (by decide)

theorem nl_not_mem_pair (a b : String) : '\n' ∉ encStr a ++ ':' :: encStr b := by
  intro h
  rcases List.mem_append.mp h with h1 | h1
  · exact nl_not_mem_encStr a h1
  · rcases List.mem_cons.mp h1 with h2 | h2
    · exact absurd h2 (by decide)
    · exact nl_not_mem_encStr b h2

theorem nl_not_mem_intercalateC (sep : Char) (hsep : sep ≠ '\n')
    (ls : List (List Char)) (hall : ∀ x ∈ ls, '\n' ∉ x) :
    '\n' ∉ intercalateC sep ls := by
  induction ls with
  | nil => simp [intercalateC]
  | cons x xs ih =>
    cases xs with
    | nil => simpa [intercalateC] using hall x (by simp)
    | cons y ys =>
      intro h
      rcases List.mem_append.mp h with h1 | h1
      · exact hall x (by simp) h1
      · rcases List.mem_cons.mp h1 with h2 | h2
        · exact hsep h2.symm
        · exact ih (fun z hz => hall z (by simp [hz])) h2

theorem nl_not_mem_encVal (v : JsonVal) : '\n' ∉ encVal v := by
  cases v with
  | str s => exact nl_not_mem_encStr s
  | obj props =>
    intro h
    rcases List.mem_cons.mp h with h1 | h1
    · exact absurd h1 (by decide)
    · rcases List.mem_append.mp h1 with h2 | h2
      · refine nl_not_mem_intercalateC ',' (by decide) _ ?_ h2
        intro x hx
        rcases List.mem_map.mp hx with ⟨p, _, rfl⟩
        exact nl_not_mem_pair p.1 p.2
      · exact absurd h2 (by decide)

theorem nl_not_mem_renderFields (fs : List (String × JsonVal)) :
    '\n' ∉ renderFields fs := by
  intro h
  rcases List.mem_cons.mp h with h1 | h1
  · exact absurd h1 (by decide)
  · rcases List.mem_append.mp h1 with h2 | h2
    · refine nl_not_mem_intercalateC ',' (by decide) _ ?_ h2
      intro x hx
      rcases List.mem_map.mp hx with ⟨f, _, rfl⟩
      intro hm
      rcases List.mem_append.mp hm with h3 | h3
      · exact nl_not_mem_encStr f.1 h3
      · rcases List.mem_cons.mp h3 with h4 | h4
        · exact absurd h4 (by decide)
        · exact nl_not_mem_encVal f.2 h4
    · exact absurd h2 (by decide)

theorem splitLinesAux_line (body rest acc : List Char) (h : '\n' ∉ body) :
    splitLinesAux (body ++ '\n' :: rest) acc
      = ((acc.reverse ++ body) ++ ['\n']) :: splitLinesAux rest [] := by
  induction body generalizing acc with
  | nil => simp [splitLinesAux]
  | cons c cs ih =>
    have hc : c ≠ '\n' := fun hh => h (by simp [hh])
    have hcs : '\n' ∉ cs := fun hh => h (by simp [hh])
    simp only [List.cons_append, splitLinesAux, if_neg hc, List.append_eq]
    rw [ih _ hcs]
    simp

theorem splitLines_flatten (lines : List (List Char))
    (h : ∀ line ∈ lines, ∃ body, line = body ++ ['\n'] ∧ '\n' ∉ body) :
    splitLines (List.flatten lines) = lines := by
  induction lines with
  | nil => rfl
  | cons line ls ih =>
    obtain ⟨body, hline, hb⟩ := h line (by simp)
    subst hline
    have hfl : List.flatten ((body ++ ['\n']) :: ls) = body ++ '\n' :: List.flatten ls := by
      simp
    show splitLinesAux (List.flatten ((body ++ ['\n']) :: ls)) [] = (body ++ ['\n']) :: ls
    rw [hfl, splitLinesAux_line _ _ _ hb]
    simp only [List.reverse_nil, List.nil_append]
    exact congrArg (List.cons _) (ih (fun l hl => h l (by simp [hl])))

theorem length_filterMap_eq_countP {α β : Type} (f : α → Option β) (xs : List α) :
    (xs.filterMap f).length = xs.countP (fun x => (f x).isSome) := by
  induction xs with
  | nil => rfl
  | cons x xs ih =>
    cases hf : f x with
    | none => simp [List.filterMap_cons, hf, List.countP_cons, ih]
    | some b => simp [List.filterMap_cons, hf, List.countP_cons, ih]

theorem emitLine_eq (l : Logger) (c : CallRec) :
    emitLine l c
      = if l.minLevel ≤ c.level
        then some (renderFields (entryFields c.level c.message c.props c.stack c.timeStr)
                   ++ ['\n'])
        else none := by
  unfold emitLine Logger.print Logger.printWith jsonMarshal
  by_cases h : c.level < l.minLevel
  · simp [h, not_le.mpr h]
  · simp [h, not_lt.mp h]

/-- C9: for N concurrent logging calls, the sink — writes being atomic
under the logger's mutex, so an interleaving is any permutation of the
per-call writes — decomposes back into exactly the per-call lines: each
call at or above the threshold contributes one complete newline-terminated
line with no bytes of any other call in it, and the number of lines equals
the number of calls at or above the threshold.  Formatting happens outside
the mutex: `emitLine` is a pure function of the call alone. -/
theorem concurrent_writes_whole_lines (l : Logger) (calls order : List CallRec)
    (hperm : order.Perm calls) :
    splitLines (List.flatten (order.filterMap (emitLine l)))
      = order.filterMap (emitLine l)
    ∧ (order.filterMap (emitLine l)).length
        = calls.countP (fun c => decide (l.minLevel ≤ c.level))
    ∧ ∀ line ∈ order.filterMap (emitLine l),
        ∃ body, line = body ++ ['\n'] ∧ '\n' ∉ body := by
  have hline : ∀ line ∈ order.filterMap (emitLine l),
      ∃ body, line = body ++ ['\n'] ∧ '\n' ∉ body := by
    intro line hl
    rcases List.mem_filterMap.mp hl with ⟨c, _, hc⟩
    rw [emitLine_eq] at hc
    by_cases h : l.minLevel ≤ c.level
    · rw [if_pos h] at hc
      exact ⟨renderFields _, (Option.some.inj hc).symm, nl_not_mem_renderFields _⟩
    · rw [if_neg h] at hc
      exact absurd hc (by simp)
  refine ⟨splitLines_flatten _ hline, ?_, hline⟩
  rw [length_filterMap_eq_countP, hperm.countP_eq]
  refine List.countP_congr ?_
  intro c _
  rw [emitLine_eq]
  by_cases h : l.minLevel ≤ c.level
  · simp [h]
  · simp [h]


/-- Witness for C9: two concurrent calls under threshold ERROR, scheduled in
the opposite of program order; the sink still reads back as exactly the one
admitted complete line. -/
theorem concurrent_writes_whole_lines_witness :
    List.Perm [callErrSample, callInfoSample] [callInfoSample, callErrSample]
    ∧ (splitLines (List.flatten (([callErrSample, callInfoSample]).filterMap
          (emitLine (New LevelError))))
        = ([callErrSample, callInfoSample]).filterMap (emitLine (New LevelError))
      ∧ (([callErrSample, callInfoSample]).filterMap (emitLine (New LevelError))).length
          = ([callInfoSample, callErrSample]).countP
              (fun c => decide ((New LevelError).minLevel ≤ c.level))
      ∧ ∀ line ∈ ([callErrSample, callInfoSample]).filterMap (emitLine (New LevelError)),
          ∃ body, line = body ++ ['\n'] ∧ '\n' ∉ body) :=
  ⟨List.Perm.swap callInfoSample callErrSample [],
   concurrent_writes_whole_lines (New LevelError) [callInfoSample, callErrSample]
     [callErrSample, callInfoSample] (List.Perm.swap callInfoSample callErrSample [])⟩

end Jsonlog


namespace Serve

/-- On the clean-shutdown path the interleaving is forced by the channel:
the run visits exactly these eight configurations in order. -/
theorem reaches_initServe_none (c : Config) (h : Reaches (initServe none) c) :
    c = initServe none ∨ c = cfgN1 ∨ c = cfgN2 ∨ c = cfgN3 ∨ c = cfgN4
    ∨ c = cfgN5 ∨ c = cfgN6 ∨ c = cfgN7 := by
  induction h with
  | refl => exact Or.inl rfl
  | tail h1 h2 ih =>
    rcases ih with rfl | rfl | rfl | rfl | rfl | rfl | rfl | rfl
    · cases h2
      exact Or.inr (Or.inl rfl)
    · cases h2
      exact Or.inr (Or.inr (Or.inl rfl))
    · cases h2
      exact Or.inr (Or.inr (Or.inr (Or.inl rfl)))
    · cases h2
      exact Or.inr (Or.inr (Or.inr (Or.inr (Or.inl rfl))))
    · cases h2
      exact Or.inr (Or.inr (Or.inr (Or.inr (Or.inr (Or.inl rfl)))))
    · cases h2
      exact Or.inr (Or.inr (Or.inr (Or.inr (Or.inr (Or.inr (Or.inl rfl))))))
    · cases h2
      exact Or.inr (Or.inr (Or.inr (Or.inr (Or.inr (Or.inr (Or.inr rfl))))))
    · cases h2

/-- Genuine bind/accept failure: `serve` logs startup, returns the error,
and the process exits non-zero; the completion channel is never touched. -/
theorem reaches_initFail (e : String) (c : Config) (h : Reaches (initFail e) c) :
    c = initFail e
    ∨ c = ⟨[], [MInstr.mret (some e), MInstr.mexit 1], false,
           [SEvent.log "starting server"]⟩
    ∨ c = ⟨[], [MInstr.mexit 1], false,
           [SEvent.log "starting server", SEvent.ret (some e)]⟩
    ∨ c = ⟨[], [], true,
           [SEvent.log "starting server", SEvent.ret (some e), SEvent.exit 1]⟩ := by
  induction h with
  | refl => exact Or.inl rfl
  | tail h1 h2 ih =>
    rcases ih with rfl | rfl | rfl | rfl
    · cases h2
      exact Or.inr (Or.inl rfl)
    · cases h2
      exact Or.inr (Or.inr (Or.inl rfl))
    · cases h2
      exact Or.inr (Or.inr (Or.inr rfl))
    · cases h2

@[simp] theorem sendsOf_append (a b : List SEvent) :
    sendsOf (a ++ b) = sendsOf a ++ sendsOf b := List.filterMap_append a b _

@[simp] theorem retsOf_append (a b : List SEvent) :
    retsOf (a ++ b) = retsOf a ++ retsOf b := List.filterMap_append a b _

@[simp] theorem exitsOf_append (a b : List SEvent) :
    exitsOf (a ++ b) = exitsOf a ++ exitsOf b := List.filterMap_append a b _

@[simp] theorem logsOf_append (a b : List SEvent) :
    logsOf (a ++ b) = logsOf a ++ logsOf b := List.filterMap_append a b _

@[simp] theorem sendsOf_log (s : String) : sendsOf [SEvent.log s] = [] := rfl

@[simp] theorem sendsOf_send (v : Option String) : sendsOf [SEvent.send v] = [v] := rfl

@[simp] theorem sendsOf_wgWait : sendsOf [SEvent.wgWait] = [] := rfl

@[simp] theorem sendsOf_ret (v : Option String) : sendsOf [SEvent.ret v] = [] := rfl

@[simp] theorem sendsOf_exit (k : Nat) : sendsOf [SEvent.exit k] = [] := rfl

@[simp] theorem retsOf_log (s : String) : retsOf [SEvent.log s] = [] := rfl

@[simp] theorem retsOf_send (v : Option String) : retsOf [SEvent.send v] = [] := rfl

@[simp] theorem retsOf_wgWait : retsOf [SEvent.wgWait] = [] := rfl

@[simp] theorem retsOf_ret (v : Option String) : retsOf [SEvent.ret v] = [v] := rfl

@[simp] theorem retsOf_exit (k : Nat) : retsOf [SEvent.exit k] = [] := rfl

@[simp] theorem exitsOf_log (s : String) : exitsOf [SEvent.log s] = [] := rfl

@[simp] theorem exitsOf_send (v : Option String) : exitsOf [SEvent.send v] = [] := rfl

@[simp] theorem exitsOf_wgWait : exitsOf [SEvent.wgWait] = [] := rfl

@[simp] theorem exitsOf_ret (v : Option String) : exitsOf [SEvent.ret v] = [] := rfl

@[simp] theorem exitsOf_exit (k : Nat) : exitsOf [SEvent.exit k] = [k] := rfl


/-- Every configuration reachable on the drain-failure path satisfies the
invariant. -/
theorem reaches_initServe_some (e : String) (c : Config)
    (h : Reaches (initServe (some e)) c) : failInvariant e c := by
  induction h with
  | refl => exact Or.inl ⟨_, rfl, rfl, rfl, rfl⟩
  | tail h1 h2 ih =>
    rcases ih with ⟨t, rfl, hs, hr, hq⟩ | ⟨t, rfl, hs, hr, hq⟩ | ⟨t, rfl, hs, hr, hq⟩ |
      ⟨t, rfl, hs, hr, hq⟩ | ⟨t, rfl, hs, hr, hq⟩ | ⟨t, rfl, hs, hr, hq⟩ |
      ⟨t, rfl, hs, hr, hq⟩ | ⟨t, rfl, hs, hr, hq⟩ | ⟨t, rfl, hs, hr, hq⟩ |
      ⟨t, rfl, hs, hr, hq⟩ | ⟨t, rfl, hs, hr, hq⟩
    · cases h2
      exact Or.inr (Or.inl ⟨_, rfl, by simp [hs], by simp [hr], by simp [hq]⟩)
    · cases h2
      exact Or.inr (Or.inr (Or.inl ⟨_, rfl, by simp [hs], by simp [hr], by simp [hq]⟩))
    · cases h2
      · exact Or.inr (Or.inr (Or.inr (Or.inl
          ⟨_, rfl, by simp [hs], by simp [hr], by simp [hq]⟩)))
      · exact Or.inr (Or.inr (Or.inr (Or.inr (Or.inr (Or.inl
          ⟨_, rfl, by simp [hs], by simp [hr], by simp [hq]⟩)))))
    · cases h2
      · exact Or.inr (Or.inr (Or.inr (Or.inr (Or.inl
          ⟨_, rfl, by simp [hs], by simp [hr], by simp [hq]⟩))))
      · exact Or.inr (Or.inr (Or.inr (Or.inr (Or.inr (Or.inr (Or.inl
          ⟨_, rfl, by simp [hs], by simp [hr], by simp [hq]⟩))))))
    · cases h2
      exact Or.inr (Or.inr (Or.inr (Or.inr (Or.inr (Or.inr (Or.inr (Or.inl
        ⟨_, rfl, by simp [hs], by simp [hr], by simp [hq]⟩)))))))
    · cases h2
      · exact Or.inr (Or.inr (Or.inr (Or.inr (Or.inr (Or.inr (Or.inl
          ⟨_, rfl, by simp [hs], by simp [hr], by simp [hq]⟩))))))
      · exact Or.inr (Or.inr (Or.inr (Or.inr (Or.inr (Or.inr (Or.inr (Or.inr (Or.inl
          ⟨_, rfl, by simp [hs], by simp [hr], by simp [hq]⟩))))))))
    · cases h2
      · exact Or.inr (Or.inr (Or.inr (Or.inr (Or.inr (Or.inr (Or.inr (Or.inl
          ⟨_, rfl, by simp [hs], by simp [hr], by simp [hq]⟩)))))))
      · exact Or.inr (Or.inr (Or.inr (Or.inr (Or.inr (Or.inr (Or.inr (Or.inr (Or.inr (Or.inl
          ⟨_, rfl, by simp [hs], by simp [hr], by simp [hq]⟩)))))))))
    · cases h2
      exact Or.inr (Or.inr (Or.inr (Or.inr (Or.inr (Or.inr (Or.inr (Or.inr (Or.inr (Or.inr
        ⟨_, rfl, by simp [hs], by simp [hr], by simp [hq]⟩)))))))))
    · cases h2
    · cases h2
    · cases h2

theorem send_mem_sendsOf {v : Option String} {t : List SEvent}
    (h : SEvent.send v ∈ t) : v ∈ sendsOf t :=
  List.mem_filterMap.mpr ⟨SEvent.send v, h, rfl⟩


theorem reaches_cfgAfterWait (e : String) :
    Reaches (initServe (some e)) (cfgAfterWait e) :=
  Relation.ReflTransGen.head (Step.wlog _ _ _ _)
    (Relation.ReflTransGen.head (Step.rendezvous _ _ _)
      (Relation.ReflTransGen.head (Step.wlog _ _ _ _)
        (Relation.ReflTransGen.head (Step.wwait _ _ _) Relation.ReflTransGen.refl)))

theorem reaches_cfgN7 : Reaches (initServe none) cfgN7 :=
  Relation.ReflTransGen.head (Step.wlog _ _ _ _)
    (Relation.ReflTransGen.head (Step.wlog _ _ _ _)
      (Relation.ReflTransGen.head (Step.wwait _ _ _)
        (Relation.ReflTransGen.head (Step.rendezvous _ _ _)
          (Relation.ReflTransGen.head (Step.mlog _ _ _ _)
            (Relation.ReflTransGen.head (Step.mret _ _ _ _)
              (Relation.ReflTransGen.head (Step.mexit _ _ _ _)
                Relation.ReflTransGen.refl))))))

theorem terminal_cfgN7 : Terminal cfgN7 := fun _ h => nomatch h


theorem reaches_cfgFailDone (e : String) : Reaches (initFail e) (cfgFailDone e) :=
  Relation.ReflTransGen.head (Step.mlog _ _ _ _)
    (Relation.ReflTransGen.head (Step.mret _ _ _ _)
      (Relation.ReflTransGen.head (Step.mexit _ _ _ _) Relation.ReflTransGen.refl))

theorem terminal_cfgFailDone (e : String) : Terminal (cfgFailDone e) :=
  fun _ h => nomatch h

/-- Summary facts for every reachable configuration of the clean-shutdown
run: the channel has delivered nothing or exactly nil, and the only stuck
configuration is the fully exited one. -/
theorem clean_run_facts (c : Config) (h : Reaches (initServe none) c) :
    (sendsOf c.trace = [] ∨ sendsOf c.trace = [none])
    ∧ (Terminal c → c = cfgN7) := by
  rcases reaches_initServe_none c h with rfl | rfl | rfl | rfl | rfl | rfl | rfl | rfl
  · exact ⟨Or.inl rfl, fun hT => absurd (Step.wlog _ _ _ _) (hT _)⟩
  · exact ⟨Or.inl rfl, fun hT => absurd (Step.wlog _ _ _ _) (hT _)⟩
  · exact ⟨Or.inl rfl, fun hT => absurd (Step.wwait _ _ _) (hT _)⟩
  · exact ⟨Or.inl rfl, fun hT => absurd (Step.rendezvous _ _ _) (hT _)⟩
  · exact ⟨Or.inr rfl, fun hT => absurd (Step.mlog _ _ _ _) (hT _)⟩
  · exact ⟨Or.inr rfl, fun hT => absurd (Step.mret _ _ _ _) (hT _)⟩
  · exact ⟨Or.inr rfl, fun hT => absurd (Step.mexit _ _ _ _) (hT _)⟩
  · exact ⟨Or.inr rfl, fun _ => rfl⟩

/-- Summary facts for every reachable configuration of the drain-failure
run: only the drain error is ever delivered (at most once, and exactly once
by the time the system is stuck), the trailing nil send never completes,
and a stuck run has returned the error and exited with status 1. -/
theorem failure_run_facts (e : String) (c : Config)
    (h : Reaches (initServe (some e)) c) :
    (sendsOf c.trace = [] ∨ sendsOf c.trace = [some e])
    ∧ SEvent.send none ∉ c.trace
    ∧ (Terminal c →
        sendsOf c.trace = [some e] ∧ retsOf c.trace = [some e]
        ∧ exitsOf c.trace = [1]) := by
  have main : (sendsOf c.trace = [] ∨ sendsOf c.trace = [some e])
      ∧ (Terminal c →
          sendsOf c.trace = [some e] ∧ retsOf c.trace = [some e]
          ∧ exitsOf c.trace = [1]) := by
    rcases reaches_initServe_some e c h with ⟨t, rfl, hs, hr, hq⟩ | ⟨t, rfl, hs, hr, hq⟩ |
      ⟨t, rfl, hs, hr, hq⟩ | ⟨t, rfl, hs, hr, hq⟩ | ⟨t, rfl, hs, hr, hq⟩ |
      ⟨t, rfl, hs, hr, hq⟩ | ⟨t, rfl, hs, hr, hq⟩ | ⟨t, rfl, hs, hr, hq⟩ |
      ⟨t, rfl, hs, hr, hq⟩ | ⟨t, rfl, hs, hr, hq⟩ | ⟨t, rfl, hs, hr, hq⟩
    · exact ⟨Or.inl hs, fun hT => absurd (Step.wlog _ _ _ _) (hT _)⟩
    · exact ⟨Or.inl hs, fun hT => absurd (Step.rendezvous _ _ _) (hT _)⟩
    · exact ⟨Or.inr hs, fun hT => absurd (Step.wlog _ _ _ _) (hT _)⟩
    · exact ⟨Or.inr hs, fun hT => absurd (Step.wwait _ _ _) (hT _)⟩
    · exact ⟨Or.inr hs, fun hT => absurd (Step.mret _ _ _ _) (hT _)⟩
    · exact ⟨Or.inr hs, fun hT => absurd (Step.wlog _ _ _ _) (hT _)⟩
    · exact ⟨Or.inr hs, fun hT => absurd (Step.wwait _ _ _) (hT _)⟩
    · exact ⟨Or.inr hs, fun hT => absurd (Step.mexit _ _ _ _) (hT _)⟩
    · exact ⟨Or.inr hs, fun _ => ⟨hs, hr, hq⟩⟩
    · exact ⟨Or.inr hs, fun _ => ⟨hs, hr, hq⟩⟩
    · exact ⟨Or.inr hs, fun _ => ⟨hs, hr, hq⟩⟩
  refine ⟨main.1, ?_, main.2⟩
  intro hmem
  have hv := send_mem_sendsOf hmem
  rcases main.1 with hs | hs <;> rw [hs] at hv <;> simp at hv

/-- Summary facts for the genuine-listen-failure run: the channel is never
touched, and the stuck configuration has returned the error and exited
non-zero. -/
theorem failpath_run_facts (e : String) (c : Config)
    (h : Reaches (initFail e) c) :
    sendsOf c.trace = [] ∧ (Terminal c → c = cfgFailDone e) := by
  rcases reaches_initFail e c h with rfl | rfl | rfl | rfl
  · exact ⟨rfl, fun hT => absurd (Step.mlog _ _ _ _) (hT _)⟩
  · exact ⟨rfl, fun hT => absurd (Step.mret _ _ _ _) (hT _)⟩
  · exact ⟨rfl, fun hT => absurd (Step.mexit _ _ _ _) (hT _)⟩
  · exact ⟨rfl, fun _ => rfl⟩

/-- C1: on every execution of the shutdown sequence — drain success or
drain failure — at most one value is ever delivered on the `shutdownError`
channel, and by the time the system can make no further step exactly one
value has been delivered: the drain failure on the failure path, nil on the
success path.  (On the failure path the goroutine does reach a second,
trailing nil send, but that send can never complete: the unbuffered channel
has no second reader — see the C2 theorems.) -/
theorem shutdown_outcome_delivered_once (res : Option String) (c : Config)
    (h : Reaches (initServe res) c) :
    (sendsOf c.trace = [] ∨ sendsOf c.trace = [res])
    ∧ (Terminal c → sendsOf c.trace = [res]) := by
  cases res with
  | none =>
    have f := clean_run_facts c h
    exact ⟨f.1, fun hT => by rw [f.2 hT]; rfl⟩
  | some e =>
    have f := failure_run_facts e c h
    exact ⟨f.1, fun hT => (f.2.2 hT).1⟩

/-- Witness for C1: the terminal configuration of the clean run, reached by
an explicit execution; exactly the nil outcome was delivered. -/
theorem shutdown_outcome_delivered_once_witness :
    Reaches (initServe none) cfgN7 ∧ Terminal cfgN7 ∧ sendsOf cfgN7.trace = [none] :=
  ⟨reaches_cfgN7, terminal_cfgN7,
   (shutdown_outcome_delivered_once none cfgN7 reaches_cfgN7).2 terminal_cfgN7⟩

/-- C2 counterexample: an execution of the drain-failure path (Shutdown
returned "context deadline exceeded") in which the watcher, after
delivering the error, goes on to execute the unbounded `app.wg.Wait()` —
the claim says that wait is never executed on the failure path, but the
source's error branch does not return, so the goroutine falls through to
the wait. -/
theorem drain_failure_wait_counterexample :
    Reaches (initServe (some "context deadline exceeded"))
      (cfgAfterWait "context deadline exceeded")
    ∧ SEvent.wgWait ∈ (cfgAfterWait "context deadline exceeded").trace :=
  ⟨reaches_cfgAfterWait _, by decide⟩

/-- C2 amended: whenever the bounded drain fails with error `e`, the
watcher delivers exactly `e` as the shutdown outcome (the only value ever
delivered on the channel, and its trailing nil send never completes), but
it does not skip the rest of the shutdown body: there is an execution in
which it goes on to log "completing background tasks" and execute the
unbounded `app.wg.Wait()`. -/
theorem drain_failure_delivers_then_keeps_waiting (e : String) :
    (∀ c, Reaches (initServe (some e)) c →
        (sendsOf c.trace = [] ∨ sendsOf c.trace = [some e])
        ∧ SEvent.send none ∉ c.trace
        ∧ (Terminal c → sendsOf c.trace = [some e]))
    ∧ Reaches (initServe (some e)) (cfgAfterWait e)
    ∧ SEvent.wgWait ∈ (cfgAfterWait e).trace
    ∧ SEvent.log "completing background tasks" ∈ (cfgAfterWait e).trace := by
  refine ⟨?_, reaches_cfgAfterWait e, by simp [cfgAfterWait], by simp [cfgAfterWait]⟩
  intro c h
  have f := failure_run_facts e c h
  exact ⟨f.1, f.2.1, fun hT => (f.2.2 hT).1⟩

/-- Witness for the amended C2 at the concrete drain error "boom". -/
theorem drain_failure_delivers_then_keeps_waiting_witness :
    Reaches (initServe (some "boom")) (cfgAfterWait "boom")
    ∧ (sendsOf (cfgAfterWait "boom").trace = []
        ∨ sendsOf (cfgAfterWait "boom").trace = [some "boom"])
    ∧ SEvent.send none ∉ (cfgAfterWait "boom").trace :=
  ⟨reaches_cfgAfterWait "boom",
   ((drain_failure_delivers_then_keeps_waiting "boom").1 (cfgAfterWait "boom")
      (reaches_cfgAfterWait "boom")).1,
   ((drain_failure_delivers_then_keeps_waiting "boom").1 (cfgAfterWait "boom")
      (reaches_cfgAfterWait "boom")).2.1⟩

/-- C5: the reconciliation path.  A genuine (non-sentinel) accept/bind
failure makes `serve` return that error at once — the completion channel is
never read (no delivery ever happens in such a run) and the process exits
non-zero.  On the sentinel path `serve` receives exactly one value: a
non-nil value becomes its return value; nil is followed by the
"stopped server" log and a nil return. -/
theorem serve_reconciliation_paths :
    (∀ (e : String) (c : Config), Reaches (initFail e) c →
        sendsOf c.trace = []
        ∧ (Terminal c → retsOf c.trace = [some e] ∧ exitsOf c.trace = [1]))
    ∧ (∀ (e : String) (c : Config), Reaches (initServe (some e)) c → Terminal c →
        sendsOf c.trace = [some e] ∧ retsOf c.trace = [some e])
    ∧ (∀ c : Config, Reaches (initServe none) c → Terminal c →
        sendsOf c.trace = [none] ∧ retsOf c.trace = [none]
        ∧ "stopped server" ∈ logsOf c.trace) := by
  refine ⟨fun e c h => ?_, fun e c h hT => ?_, fun c h hT => ?_⟩
  · have f := failpath_run_facts e c h
    exact ⟨f.1, fun hT => by rw [f.2 hT]; exact ⟨rfl, rfl⟩⟩
  · have f := failure_run_facts e c h
    exact ⟨(f.2.2 hT).1, (f.2.2 hT).2.1⟩
  · have f := clean_run_facts c h
    rw [f.2 hT]
    exact ⟨rfl, rfl, by decide⟩

/-- Witness for C5: the genuine-failure run at a concrete bind error,
driven to its stuck configuration. -/
theorem serve_reconciliation_paths_witness :
    Reaches (initFail "listen tcp: address already in use")
      (cfgFailDone "listen tcp: address already in use")
    ∧ Terminal (cfgFailDone "listen tcp: address already in use")
    ∧ sendsOf (cfgFailDone "listen tcp: address already in use").trace = []
    ∧ retsOf (cfgFailDone "listen tcp: address already in use").trace
        = [some "listen tcp: address already in use"]
    ∧ exitsOf (cfgFailDone "listen tcp: address already in use").trace = [1] :=
  ⟨reaches_cfgFailDone _, terminal_cfgFailDone _,
   (serve_reconciliation_paths.1 "listen tcp: address already in use" _
      (reaches_cfgFailDone _)).1,
   ((serve_reconciliation_paths.1 "listen tcp: address already in use" _
      (reaches_cfgFailDone _)).2 (terminal_cfgFailDone _)).1,
   ((serve_reconciliation_paths.1 "listen tcp: address already in use" _
      (reaches_cfgFailDone _)).2 (terminal_cfgFailDone _)).2⟩

/-- C8: the clean-shutdown execution (signal received, no in-flight
requests, zero outstanding background tasks) emits, after the startup line,
exactly the three log events "shutting down server",
"completing background tasks" and "stopped server", in that order, and the
process exits with status 0 (the exit status itself is modelled from the
spec, `main()` not being part of the sources). -/
theorem clean_shutdown_three_logs_exit_zero (c : Config)
    (h : Reaches (initServe none) c) (hT : Terminal c) :
    logsOf c.trace = ["starting server", "shutting down server",
      "completing background tasks", "stopped server"]
    ∧ exitsOf c.trace = [0] ∧ retsOf c.trace = [none] := by
  rw [(clean_run_facts c h).2 hT]
  exact ⟨rfl, rfl, rfl⟩

/-- Witness for C8: the explicit clean run reaching the exited
configuration. -/
theorem clean_shutdown_three_logs_exit_zero_witness :
    Reaches (initServe none) cfgN7 ∧ Terminal cfgN7
    ∧ logsOf cfgN7.trace = ["starting server", "shutting down server",
        "completing background tasks", "stopped server"]
    ∧ exitsOf cfgN7.trace = [0] :=
  ⟨reaches_cfgN7, terminal_cfgN7,
   (clean_shutdown_three_logs_exit_zero cfgN7 reaches_cfgN7 terminal_cfgN7).1,
   (clean_shutdown_three_logs_exit_zero cfgN7 reaches_cfgN7 terminal_cfgN7).2.1⟩

end Serve

end Greenlight
